import Mathlib

/-!
Shallow embedding of the role-based resume generator (build.py and
build_docx.py) and proofs about its tag-filtering, section-assembly,
emphasis-parsing, CLI and output-versioning behaviour.

Conventions:
* A YAML content item is `Item`; a missing "tags" key is `Option.none`
  (build.py indexes `item["tags"]` directly and raises KeyError when the
  key is absent, while build_docx.py uses `item.get("tags", [])`).
* Python code that can raise is embedded in `Except String`.
* Dictionaries that are iterated in insertion order are embedded as
  association lists.
-/

namespace ResumeGen

/-- A tagged content unit from data/resume.yaml: `text` plus an optional
list of role tags (`none` models an absent "tags" key). -/
structure Item where
  text : String
  tags : Option (List String)
deriving DecidableEq, Repr

/-- An experience entry: company, role, location, dates and tagged bullets
(build_docx.py reads all five keys; build.py ignores `location`). -/
structure ExpEntry where
  company : String
  role : String
  location : String
  dates : String
  bullets : List Item
deriving DecidableEq, Repr

/-- A project entry from the YAML data (build_docx.py, PROJECTS section). -/
structure ProjEntry where
  name : String
  tech_stack : String
  dates : String
  bullets : List Item
deriving DecidableEq, Repr

/-- A skills category: label, skill strings and an optional tag list. -/
structure SkillCat where
  label : String
  items : List String
  tags : Option (List String)
deriving DecidableEq, Repr

/-- The experience record assembled by build.py (bullets are already
projected to their text by `filter_items`). -/
structure MdExpOut where
  company : String
  role : String
  dates : String
  bullets : List String
deriving DecidableEq, Repr

/-- build_docx.py `filter_by_tags(items, role)`: identity when `role` is
"all", otherwise a loop appending every item whose tag list (absent key
read as `[]`) contains "all" or the role. -/
def filter_by_tags (items : List Item) (role : String) : List Item :=
  if role = "all" then items
  else
    items.foldl
      (fun acc item =>
        if (item.tags.getD []).contains "all" || (item.tags.getD []).contains role
        then acc ++ [item] else acc)
      []

/-- build.py `filter_items(items)`: the list comprehension
`[item["text"] for item in items if ROLE in item["tags"]]`.  Indexing
`item["tags"]` raises KeyError when the key is absent, hence `Except`. -/
def filter_items (role : String) : List Item → Except String (List String)
  | [] => Except.ok []
  | item :: rest =>
    match item.tags with
    | none => Except.error "KeyError: tags"
    | some tags =>
      match filter_items role rest with
      | Except.error e => Except.error e
      | Except.ok r =>
        Except.ok (if tags.contains role then item.text :: r else r)

/-- build_docx.py experience assembly: for each entry filter its bullets;
append a rebuilt entry (same company/role/location/dates, filtered
bullets) only when at least one bullet survives. -/
def build_experience_items (exps : List ExpEntry) (role : String) : List ExpEntry :=
  exps.foldl
    (fun acc exp =>
      if !(filter_by_tags exp.bullets role).isEmpty
      then acc ++ [{ company := exp.company, role := exp.role,
                     location := exp.location, dates := exp.dates,
                     bullets := filter_by_tags exp.bullets role }]
      else acc)
    []

/-- build_docx.py projects assembly: same rule as experience, applied to
project bullets. -/
def build_project_items (projs : List ProjEntry) (role : String) : List ProjEntry :=
  projs.foldl
    (fun acc proj =>
      if !(filter_by_tags proj.bullets role).isEmpty
      then acc ++ [{ name := proj.name, tech_stack := proj.tech_stack,
                     dates := proj.dates,
                     bullets := filter_by_tags proj.bullets role }]
      else acc)
    []

/-- build.py experience assembly: for each entry run `filter_items` on its
bullets (which may raise) and keep a company/role/dates/bullets record
only when at least one bullet survives. -/
def experience_md (role : String) : List ExpEntry → Except String (List MdExpOut)
  | [] => Except.ok []
  | exp :: rest =>
    match filter_items role exp.bullets with
    | Except.error e => Except.error e
    | Except.ok bullets =>
      match experience_md role rest with
      | Except.error e => Except.error e
      | Except.ok r =>
        Except.ok (if bullets.isEmpty then r
                   else { company := exp.company, role := exp.role,
                          dates := exp.dates, bullets := bullets } :: r)

/-- build.py skills assembly: the dict comprehension
`{k: v for k, v in data["skills"].items() if k == ROLE or ROLE == "fullstack"}`
over the insertion-ordered skills mapping. -/
def skills_md (role : String) (skillsData : List (String × SkillCat)) :
    List (String × SkillCat) :=
  skillsData.foldl
    (fun acc kv => if kv.1 == role || role == "fullstack" then acc ++ [kv] else acc)
    []

/-- build_docx.py skills assembly: loop over `data["skills"].items()`
appending `skill_cat` whenever its tag list (absent key read as `[]`)
contains "all" or the role. -/
def skills_docx (role : String) (skillsData : List (String × SkillCat)) :
    List SkillCat :=
  skillsData.foldl
    (fun acc kv =>
      if (kv.2.tags.getD []).contains "all" || (kv.2.tags.getD []).contains role
      then acc ++ [kv.2] else acc)
    []

/-- Scanner for the closing delimiter of the regex `\*\*(.*?)\*\*` used by
build_docx.py `apply_bold_to_text`: given the characters after an opening
`**`, return the non-greedy bold content (shortest prefix up to the next
`**`, which may not contain a newline since `.` does not match one) and
the characters after the closing `**`. -/
def findClose : List Char → Option (List Char × List Char)
  | [] => none
  | [_] => none
  | c1 :: c2 :: rest =>
    if c1 = '*' ∧ c2 = '*' then some ([], rest)
    else if c1 = '\n' then none
    else (findClose (c2 :: rest)).map (fun p => (c1 :: p.1, p.2))

/-- Fueled scanner embedding `re.split(r'\*\*(.*?)\*\*', text)`: walk the
text; at each position where a full `**...**` match starts, emit the
accumulated plain text and the bold content as parts and continue after
the match; otherwise shift one character.  The fuel only bounds the
recursion; `splitStars` supplies enough for it never to run out. -/
def splitStarsAux : Nat → List Char → List Char → List (List Char)
  | _, cur, [] => [cur.reverse]
  | 0, cur, c :: rest => [cur.reverse ++ c :: rest]
  | fuel + 1, cur, [c] => splitStarsAux fuel (c :: cur) []
  | fuel + 1, cur, c1 :: c2 :: rest =>
    if c1 = '*' ∧ c2 = '*' then
      match findClose rest with
      | some (inner, rest2) => cur.reverse :: inner :: splitStarsAux fuel [] rest2
      | none => splitStarsAux fuel (c1 :: cur) (c2 :: rest)
    else splitStarsAux fuel (c1 :: cur) (c2 :: rest)

/-- `re.split(r'\*\*(.*?)\*\*', text)` on the character list of `text`. -/
def splitStars (l : List Char) : List (List Char) :=
  splitStarsAux l.length [] l

/-- The run-emitting loop of build_docx.py `apply_bold_to_text`: enumerate
the split parts, skip empty ones, and emit each remaining part as a
(text, bold) run where parts at odd indices are bold. -/
def apply_bold_loop : Nat → List String → List (String × Bool)
  | _, [] => []
  | i, p :: ps =>
    if p = "" then apply_bold_loop (i + 1) ps
    else (p, i % 2 == 1) :: apply_bold_loop (i + 1) ps

/-- build_docx.py `apply_bold_to_text(paragraph, text)`, observed as the
ordered list of (run text, run bold) pairs added to the paragraph. -/
def apply_bold_to_text (text : String) : List (String × Bool) :=
  apply_bold_loop 0 ((splitStars text.data).map String.mk)

/-- Reinsert the consumed `**` delimiters between the parts produced by
`splitStars`: parts alternate outside text and bold content, so each bold
part is wrapped back in a `**` pair. -/
def rejoin : List (List Char) → List Char
  | [] => []
  | [p] => p
  | p0 :: p1 :: ps => p0 ++ '*' :: '*' :: (p1 ++ '*' :: '*' :: rejoin ps)

/-- Whether the regex `\*\*(.*?)\*\*` matches anywhere in the text: some
position starts `**` and a closing `**` follows with no newline between. -/
def hasPair : List Char → Bool
  | [] => false
  | [_] => false
  | c1 :: c2 :: rest =>
    if c1 = '*' ∧ c2 = '*' then (findClose rest).isSome || hasPair (c2 :: rest)
    else hasPair (c2 :: rest)

/-- Whether the text contains the two-character marker `**` at all. -/
def containsStarStar : List Char → Bool
  | [] => false
  | [_] => false
  | c1 :: c2 :: rest =>
    if c1 = '*' ∧ c2 = '*' then true else containsStarStar (c2 :: rest)

/-- Observable outcome of a CLI entry point: a usage message printed to
stdout followed by `sys.exit(code)`, a normal run with the parsed role,
or an uncaught Python exception. -/
inductive CliOutcome where
  | usageExit (stdout : List String) (code : Nat)
  | proceed (role : String)
  | raised (exn : String)
deriving DecidableEq, Repr

/-- The three usage lines printed by build_docx.py when no role is given. -/
def usage_docx : List String :=
  ["Usage: python build_docx.py <role>",
   "Example: python build_docx.py python",
   "Available roles: python, java, fullstack, backend, frontend, cloud, devops, mobile, all"]

/-- build_docx.py `__main__` block: with fewer than two argv entries print
the usage lines and `sys.exit(1)`; otherwise lowercase `sys.argv[1]` and
run `build_resume`. -/
def main_docx (argv : List String) : CliOutcome :=
  if argv.length < 2 then CliOutcome.usageExit usage_docx 1
  else
    match argv.get? 1 with
    | some a => CliOutcome.proceed a.toLower
    | none => CliOutcome.raised "IndexError"

/-- build.py line 5, `ROLE = sys.argv[1].lower()`: no argument count check,
so a missing role argument raises an uncaught IndexError. -/
def main_md (argv : List String) : CliOutcome :=
  match argv.get? 1 with
  | some a => CliOutcome.proceed a.toLower
  | none => CliOutcome.raised "IndexError"

/-- The property C7 asserts of an entry point invoked without a role:
a usage message is printed to stdout and the exit status is non-zero. -/
def printsUsageNonzeroExit (o : CliOutcome) : Prop :=
  ∃ msgs code, o = CliOutcome.usageExit msgs code ∧ code ≠ 0

/-- build_docx.py output path `f"outputs/resume_{role}_{version}.docx"`. -/
def outputPath (role : String) (version : Nat) : String :=
  "outputs/resume_" ++ role ++ "_" ++ toString version ++ ".docx"

/-- build_docx.py versioning loop: starting at version 1, increment while
`os.path.exists(output_path)`; the filesystem is the predicate `fsExists`
and the hypothesis `h` states that some version starting from 1 is free
(true of any finite set of existing files), which is exactly what makes
the `while True` loop terminate. -/
def nextVersion (fsExists : String → Bool) (role : String)
    (h : ∃ k, fsExists (outputPath role (1 + k)) = false) : Nat :=
  1 + Nat.find h

/-- An empty filesystem, used to exercise the versioning loop. -/
def fsEmpty : String → Bool := fun _ => false

/-- The bullet texts the Markdown path keeps for a role: texts of bullets
whose tag list contains the role (what `filter_items` returns when no
tags key is missing). -/
def mdBullets (role : String) (bullets : List Item) : List String :=
  (bullets.filter (fun i => (i.tags.getD []).contains role)).map Item.text

/-- A foldl that appends `f a` for every `a` satisfying `p` builds the
image of the filtered list; this is the common shape of every filtering
loop and comprehension in the two build scripts. -/
theorem foldl_append_ite {α β : Type} (p : α → Bool) (f : α → β) :
    ∀ (l : List α) (acc : List β),
      l.foldl (fun acc a => if p a then acc ++ [f a] else acc) acc
        = acc ++ (l.filter p).map f := by
  intro l
  induction l with
  | nil => intro acc; simp
  | cons a l ih =>
    intro acc
    cases h : p a <;> simp [List.filter_cons, h, ih]

/-- For a role other than "all", `filter_by_tags` is the filter keeping
items whose tag list contains "all" or the role. -/
theorem filter_by_tags_eq (items : List Item) (role : String) (h : role ≠ "all") :
    filter_by_tags items role
      = items.filter
          (fun i => (i.tags.getD []).contains "all" || (i.tags.getD []).contains role) := by
  unfold filter_by_tags
  rw [if_neg h]
  simpa using
    foldl_append_ite
      (fun i => (i.tags.getD []).contains "all" || (i.tags.getD []).contains role)
      (fun i => i) items []

/-- When every item carries a tags key, `filter_items` succeeds and
returns the texts of the items whose tag list contains the role. -/
theorem filter_items_eq (role : String) :
    ∀ items : List Item, (∀ i ∈ items, i.tags ≠ none) →
      filter_items role items
        = Except.ok
            ((items.filter (fun i => (i.tags.getD []).contains role)).map Item.text) := by
  intro items
  induction items with
  | nil => intro _; rfl
  | cons item rest ih =>
    intro h
    have h1 : item.tags ≠ none := h item (by simp)
    obtain ⟨tags, htags⟩ := Option.ne_none_iff_exists'.mp h1
    have h2 := ih (fun i hi => h i (by simp [hi]))
    by_cases hc : role ∈ tags <;>
      simp [filter_items, htags, h2, List.filter_cons, hc]

/-- `filter_items` succeeds exactly when every item has a tags key. -/
theorem filter_items_ok_iff (role : String) (items : List Item) :
    (∃ l, filter_items role items = Except.ok l) ↔ ∀ i ∈ items, i.tags ≠ none := by
  constructor
  · intro hex
    induction items with
    | nil => simp
    | cons item rest ih =>
      obtain ⟨l, hl⟩ := hex
      cases htags : item.tags with
      | none => simp [filter_items, htags] at hl
      | some tags =>
        simp only [filter_items, htags] at hl
        cases hrec : filter_items role rest with
        | error e => rw [hrec] at hl; cases hl
        | ok r =>
          intro i hi
          rcases List.mem_cons.mp hi with h | h
          · rw [h, htags]; simp
          · exact ih ⟨r, hrec⟩ i h
  · intro h
    exact ⟨_, filter_items_eq role items h⟩

/-- C1 (counterexample): an item tagged only "all" is kept by the
document-path filter `filter_by_tags` but dropped by the Markdown-path
filter `filter_items` for role "backend", so the two variants do not both
implement the stated all-or-role rule. -/
theorem c1_counterexample :
    filter_items "backend" [Item.mk "t" (some ["all"])] = Except.ok []
    ∧ filter_by_tags [Item.mk "t" (some ["all"])] "backend"
        = [Item.mk "t" (some ["all"])] := by
  exact ⟨rfl, rfl⟩

/-- C1 (amended): for a role other than "all", the document-path filter
`filter_by_tags` keeps an item iff its tag list contains "all" or the
role, and in particular keeps every item tagged "all"; the Markdown-path
filter `filter_items` instead keeps an item iff its tag list contains the
role itself (given every item carries a tags key), so the all-sentinel
rule holds only in the document path. -/
theorem c1_amended (role : String) (h : role ≠ "all") (items : List Item) :
    filter_by_tags items role
      = items.filter
          (fun i => (i.tags.getD []).contains "all" || (i.tags.getD []).contains role)
    ∧ (∀ i ∈ items, (i.tags.getD []).contains "all" = true → i ∈ filter_by_tags items role)
    ∧ ((∀ i ∈ items, i.tags ≠ none) →
        filter_items role items
          = Except.ok
              ((items.filter (fun i => (i.tags.getD []).contains role)).map Item.text)) := by
  refine ⟨filter_by_tags_eq items role h, ?_, filter_items_eq role items⟩
  intro i hi hall
  rw [filter_by_tags_eq items role h]
  have hall' : "all" ∈ i.tags.getD [] := by simpa using hall
  exact List.mem_filter.mpr ⟨hi, by simp [hall']⟩

/-- C1 (witness): the amended rule evaluated for role "backend" on one
item tagged "all" and one tagged "backend": the Markdown-path filter
keeps only the "backend"-tagged text. -/
theorem c1_witness :
    filter_items "backend" [Item.mk "a" (some ["all"]), Item.mk "b" (some ["backend"])]
      = Except.ok
          (([Item.mk "a" (some ["all"]), Item.mk "b" (some ["backend"])].filter
              (fun i => (i.tags.getD []).contains "backend")).map Item.text) :=
  (c1_amended "backend" (by decide) _).2.2 (by decide)

/-- C2 (counterexample): with the sentinel role "all" the Markdown-path
filter `filter_items` is not the identity: an item tagged only "backend"
is dropped (and items are projected to their text), refuting the claim
that both variants return all items unchanged. -/
theorem c2_counterexample :
    filter_items "all" [Item.mk "t" (some ["backend"])] = Except.ok [] := by
  exact rfl

/-- C2 (amended): filtering with the sentinel role "all" is the identity
in the document path (`filter_by_tags` returns the items unchanged with
no per-item inspection), while the Markdown-path `filter_items` keeps
exactly the texts of items explicitly tagged "all". -/
theorem c2_amended (items : List Item) :
    filter_by_tags items "all" = items
    ∧ ((∀ i ∈ items, i.tags ≠ none) →
        filter_items "all" items
          = Except.ok
              ((items.filter (fun i => (i.tags.getD []).contains "all")).map Item.text)) :=
  ⟨by simp [filter_by_tags], filter_items_eq "all" items⟩

/-- C2 (witness): the amended identity law evaluated on a two-item list:
the document path returns it unchanged and the Markdown path keeps only
the "all"-tagged text. -/
theorem c2_witness :
    filter_items "all" [Item.mk "a" (some ["all"]), Item.mk "b" (some ["backend"])]
      = Except.ok
          (([Item.mk "a" (some ["all"]), Item.mk "b" (some ["backend"])].filter
              (fun i => (i.tags.getD []).contains "all")).map Item.text) :=
  (c2_amended _).2 (by decide)

/-- C3 (counterexample): a skills category whose tag list contains the
role but whose key differs from it is dropped by the Markdown-path skills
comprehension (which never consults tags), while the document path keeps
it; this refutes the claimed tag-or-key rule for the Markdown path. -/
theorem c3_counterexample :
    skills_md "backend" [("languages", SkillCat.mk "Languages" ["Go"] (some ["backend"]))]
        = []
    ∧ skills_docx "backend"
          [("languages", SkillCat.mk "Languages" ["Go"] (some ["backend"]))]
        = [SkillCat.mk "Languages" ["Go"] (some ["backend"])] := by
  exact ⟨rfl, rfl⟩

/-- C3 (amended): the Markdown-path skills assembly keeps a category iff
its key equals the role or the role is "fullstack" — tags are never
consulted — while the document path keeps a category iff its tag list
contains "all" or the role. -/
theorem c3_amended (role : String) (sd : List (String × SkillCat)) :
    skills_md role sd = sd.filter (fun kv => kv.1 == role || role == "fullstack")
    ∧ skills_docx role sd
        = (sd.filter
            (fun kv => (kv.2.tags.getD []).contains "all"
              || (kv.2.tags.getD []).contains role)).map Prod.snd := by
  constructor
  · unfold skills_md
    simpa using
      foldl_append_ite (fun kv => kv.1 == role || role == "fullstack")
        (fun kv => kv) sd []
  · unfold skills_docx
    simpa using
      foldl_append_ite
        (fun kv : String × SkillCat =>
          (kv.2.tags.getD []).contains "all" || (kv.2.tags.getD []).contains role)
        Prod.snd sd []

/-- C4 (counterexample): an item with no tags key makes the Markdown-path
filter raise (KeyError), while the document path silently excludes it;
this refutes the claim that neither variant can raise. -/
theorem c4_counterexample :
    filter_items "backend" [Item.mk "t" none] = Except.error "KeyError: tags"
    ∧ filter_by_tags [Item.mk "t" none] "backend" = [] := by
  exact ⟨rfl, rfl⟩

/-- C4 (amended): the document-path filter has no error conditions and
treats an absent or empty tag list as empty (such an item is excluded
unless the role is "all", in which case everything is returned), while
the Markdown-path filter succeeds precisely when every input item carries
a tags key and raises KeyError otherwise. -/
theorem c4_amended (role : String) (items : List Item) :
    ((∃ l, filter_items role items = Except.ok l) ↔ ∀ i ∈ items, i.tags ≠ none)
    ∧ (role ≠ "all" →
        ∀ i ∈ items, i.tags.getD [] = [] → i ∉ filter_by_tags items role)
    ∧ (role = "all" → filter_by_tags items role = items) := by
  refine ⟨filter_items_ok_iff role items, ?_, ?_⟩
  · intro h i _ htags hmem
    rw [filter_by_tags_eq items role h] at hmem
    have hc := (List.mem_filter.mp hmem).2
    rw [htags] at hc
    simp at hc
  · intro h
    simp [filter_by_tags, h]

/-- C4 (witness): the amended behaviour on a single item lacking a tags
key, for role "backend": the document-path filter excludes it. -/
theorem c4_witness :
    Item.mk "t" none ∉ filter_by_tags [Item.mk "t" none] "backend" :=
  (c4_amended "backend" [Item.mk "t" none]).2.1 (by decide)
    (Item.mk "t" none) (by decide) (by decide)

/-- The document-path experience loop equals: filter the entries whose
bullets survive, then rebuild each kept entry with its filtered bullets. -/
theorem build_experience_items_eq (exps : List ExpEntry) (role : String) :
    build_experience_items exps role
      = (exps.filter (fun e => !(filter_by_tags e.bullets role).isEmpty)).map
          (fun e => { e with bullets := filter_by_tags e.bullets role }) := by
  unfold build_experience_items
  simpa using
    foldl_append_ite (fun e : ExpEntry => !(filter_by_tags e.bullets role).isEmpty)
      (fun e => { e with bullets := filter_by_tags e.bullets role }) exps []

/-- The document-path projects loop: same characterization as experience. -/
theorem build_project_items_eq (projs : List ProjEntry) (role : String) :
    build_project_items projs role
      = (projs.filter (fun p => !(filter_by_tags p.bullets role).isEmpty)).map
          (fun p => { p with bullets := filter_by_tags p.bullets role }) := by
  unfold build_project_items
  simpa using
    foldl_append_ite (fun p : ProjEntry => !(filter_by_tags p.bullets role).isEmpty)
      (fun p => { p with bullets := filter_by_tags p.bullets role }) projs []

/-- When no bullet lacks a tags key, the Markdown-path experience loop
succeeds and equals: filter the entries with a surviving bullet, rebuild
each with its filtered bullet texts. -/
theorem experience_md_eq (role : String) :
    ∀ exps : List ExpEntry, (∀ e ∈ exps, ∀ b ∈ e.bullets, b.tags ≠ none) →
      experience_md role exps
        = Except.ok
            ((exps.filter (fun e => !(mdBullets role e.bullets).isEmpty)).map
              (fun e => MdExpOut.mk e.company e.role e.dates (mdBullets role e.bullets))) := by
  intro exps
  induction exps with
  | nil => intro _; rfl
  | cons exp rest ih =>
    intro h
    have h1 : filter_items role exp.bullets = Except.ok (mdBullets role exp.bullets) :=
      filter_items_eq role exp.bullets (h exp (by simp))
    have h2 := ih (fun e he => h e (by simp [he]))
    cases hc : (mdBullets role exp.bullets).isEmpty <;>
      simp [experience_md, h1, h2, List.filter_cons, hc]

/-- C5 (confirmed): in both build scripts an experience (or project)
entry is kept iff at least one of its bullets survives the respective tag
filter, kept entries appear in original relative order (their identities
form a sublist of the input), and a kept entry carries exactly its
filtered bullets in original order; the Markdown-path statement assumes
every bullet has a tags key, since `filter_items` raises otherwise. -/
theorem c5_assembly (role : String) (exps : List ExpEntry) (projs : List ProjEntry) :
    build_experience_items exps role
      = (exps.filter (fun e => !(filter_by_tags e.bullets role).isEmpty)).map
          (fun e => { e with bullets := filter_by_tags e.bullets role })
    ∧ build_project_items projs role
      = (projs.filter (fun p => !(filter_by_tags p.bullets role).isEmpty)).map
          (fun p => { p with bullets := filter_by_tags p.bullets role })
    ∧ ((build_experience_items exps role).map
          (fun e => (e.company, e.role, e.location, e.dates))).Sublist
        (exps.map (fun e => (e.company, e.role, e.location, e.dates)))
    ∧ ((build_project_items projs role).map
          (fun p => (p.name, p.tech_stack, p.dates))).Sublist
        (projs.map (fun p => (p.name, p.tech_stack, p.dates)))
    ∧ ((∀ e ∈ exps, ∀ b ∈ e.bullets, b.tags ≠ none) →
        experience_md role exps
          = Except.ok
              ((exps.filter (fun e => !(mdBullets role e.bullets).isEmpty)).map
                (fun e => MdExpOut.mk e.company e.role e.dates (mdBullets role e.bullets)))) := by
  refine ⟨build_experience_items_eq exps role, build_project_items_eq projs role,
    ?_, ?_, experience_md_eq role exps⟩
  · rw [build_experience_items_eq]
    have h1 :=
      (exps.filter_sublist
        (p := fun e => !(filter_by_tags e.bullets role).isEmpty)).map
        (f := fun e : ExpEntry => (e.company, e.role, e.location, e.dates))
    simpa [List.map_map, Function.comp] using h1
  · rw [build_project_items_eq]
    have h1 :=
      (projs.filter_sublist
        (p := fun p => !(filter_by_tags p.bullets role).isEmpty)).map
        (f := fun p : ProjEntry => (p.name, p.tech_stack, p.dates))
    simpa [List.map_map, Function.comp] using h1

/-- C5 (witness): the assembly rule evaluated for role "backend" on an
entry with one surviving bullet and an entry whose only bullet is
filtered out. -/
theorem c5_witness :
    experience_md "backend"
        [ExpEntry.mk "Acme" "SWE" "NYC" "2020"
           [Item.mk "built api" (some ["backend"]), Item.mk "made ui" (some ["frontend"])],
         ExpEntry.mk "Beta" "FE" "SF" "2021" [Item.mk "made ui" (some ["frontend"])]]
      = Except.ok
          (([ExpEntry.mk "Acme" "SWE" "NYC" "2020"
               [Item.mk "built api" (some ["backend"]), Item.mk "made ui" (some ["frontend"])],
             ExpEntry.mk "Beta" "FE" "SF" "2021"
               [Item.mk "made ui" (some ["frontend"])]].filter
              (fun e => !(mdBullets "backend" e.bullets).isEmpty)).map
            (fun e => MdExpOut.mk e.company e.role e.dates (mdBullets "backend" e.bullets))) :=
  (c5_assembly "backend" _ []).2.2.2.2 (by decide)

/-- A successful `findClose` run decomposes its input as the bold content
followed by the closing `**` and the remainder. -/
theorem findClose_sound :
    ∀ l inner rest, findClose l = some (inner, rest) → l = inner ++ '*' :: '*' :: rest := by
  intro l
  induction l with
  | nil => intro inner rest h; simp [findClose] at h
  | cons c1 tl ih =>
    intro inner rest h
    cases tl with
    | nil => simp [findClose] at h
    | cons c2 rest2 =>
      by_cases h1 : c1 = '*' ∧ c2 = '*'
      · rw [show findClose (c1 :: c2 :: rest2) = some ([], rest2) by
          simp [findClose, h1]] at h
        obtain ⟨rfl, rfl⟩ := by simpa using h
        simp [h1.1, h1.2]
      · by_cases h2 : c1 = '\n'
        · simp [findClose, h1, h2] at h
        · rw [show findClose (c1 :: c2 :: rest2)
                = (findClose (c2 :: rest2)).map (fun p => (c1 :: p.1, p.2)) by
              simp [findClose, h1, h2]] at h
          rw [Option.map_eq_some'] at h
          obtain ⟨⟨i', r'⟩, hfc, heq⟩ := h
          injection heq with ha hb
          subst ha
          subst hb
          rw [ih i' r' hfc]
          simp

/-- When the regex matches nowhere in the text, the splitter returns the
whole text as a single part (prefixed by the pending accumulator). -/
theorem splitStarsAux_no_pair :
    ∀ fuel cur l, l.length ≤ fuel → hasPair l = false →
      splitStarsAux fuel cur l = [cur.reverse ++ l] := by
  intro fuel
  induction fuel with
  | zero =>
    intro cur l hlen _
    have hl : l = [] := List.length_eq_zero.mp (Nat.le_zero.mp hlen)
    subst hl
    simp [splitStarsAux]
  | succ fuel ih =>
    intro cur l hlen hp
    match l with
    | [] => simp [splitStarsAux]
    | [c] => simp [splitStarsAux]
    | c1 :: c2 :: rest =>
      by_cases h1 : c1 = '*' ∧ c2 = '*'
      · have hp' : (findClose rest).isSome = false ∧ hasPair (c2 :: rest) = false := by
          simpa [hasPair, h1] using hp
        have hfc : findClose rest = none := by
          simpa using hp'.1
        have hlen2 : (c2 :: rest).length ≤ fuel := by
          simp only [List.length_cons] at hlen ⊢
          omega
        obtain ⟨rfl, rfl⟩ := h1
        simp only [splitStarsAux, hfc, and_self, if_true, reduceIte]
        rw [ih ('*' :: cur) ('*' :: rest) hlen2 hp'.2]
        simp
      · have hp' : hasPair (c2 :: rest) = false := by
          simpa [hasPair, h1] using hp
        have hlen2 : (c2 :: rest).length ≤ fuel := by
          simp only [List.length_cons] at hlen ⊢
          omega
        simp only [splitStarsAux, if_neg h1]
        rw [ih (c1 :: cur) (c2 :: rest) hlen2 hp']
        simp

/-- Reinserting the matched `**` pairs between the parts produced by the
splitter reconstructs the input exactly. -/
theorem rejoin_splitStarsAux :
    ∀ fuel cur l, l.length ≤ fuel →
      rejoin (splitStarsAux fuel cur l) = cur.reverse ++ l := by
  intro fuel
  induction fuel with
  | zero =>
    intro cur l hlen
    have hl : l = [] := List.length_eq_zero.mp (Nat.le_zero.mp hlen)
    subst hl
    simp [splitStarsAux, rejoin]
  | succ fuel ih =>
    intro cur l hlen
    match l with
    | [] => simp [splitStarsAux, rejoin]
    | [c] => simp [splitStarsAux, rejoin]
    | c1 :: c2 :: rest =>
      by_cases h1 : c1 = '*' ∧ c2 = '*'
      · obtain ⟨rfl, rfl⟩ := h1
        cases hfc : findClose rest with
        | none =>
          have hlen2 : (('*' : Char) :: rest).length ≤ fuel := by
            simp only [List.length_cons] at hlen ⊢
            omega
          simp only [splitStarsAux, hfc, and_self, if_true, reduceIte]
          rw [ih ('*' :: cur) ('*' :: rest) hlen2]
          simp
        | some p =>
          obtain ⟨inner, rest2⟩ := p
          have hdecomp := findClose_sound rest inner rest2 hfc
          have hlen2 : rest2.length ≤ fuel := by
            have : rest.length = inner.length + 2 + rest2.length := by
              rw [hdecomp]; simp; omega
            simp only [List.length_cons] at hlen
            omega
          simp only [splitStarsAux, hfc, and_self, if_true, reduceIte]
          rw [rejoin, ih [] rest2 hlen2, hdecomp]
          simp
      · have hlen2 : (c2 :: rest).length ≤ fuel := by
          simp only [List.length_cons] at hlen ⊢
          omega
        simp only [splitStarsAux, if_neg h1]
        rw [ih (c1 :: cur) (c2 :: rest) hlen2]
        simp

/-- The run-emitting loop is the enumerate-from-`i` / drop-empty /
odd-index-bold transformation of the part list. -/
theorem apply_bold_loop_eq :
    ∀ (ps : List String) (i : Nat),
      apply_bold_loop i ps
        = (ps.enumFrom i).filterMap
            (fun q => if q.2 = "" then none else some (q.2, q.1 % 2 == 1)) := by
  intro ps
  induction ps with
  | nil => intro i; rfl
  | cons p ps ih =>
    intro i
    by_cases hp : p = "" <;>
      simp [apply_bold_loop, List.enumFrom, hp, ih]

/-- Dropping empty parts does not change the concatenation: the emitted
run texts concatenate to the same characters as all the parts. -/
theorem apply_bold_loop_join :
    ∀ (ps : List String) (i : Nat),
      ((apply_bold_loop i ps).map (fun q => q.1.data)).flatten
        = (ps.map String.data).flatten := by
  intro ps
  induction ps with
  | nil => intro i; rfl
  | cons p ps ih =>
    intro i
    by_cases hp : p = ""
    · subst hp
      simp [apply_bold_loop, ih]
    · simp [apply_bold_loop, hp, ih]

/-- Projection of the one-field `String` structure. -/
theorem data_mk (l : List Char) : (String.mk l).data = l := rfl

/-- C6 (confirmed): the emphasis parser splits on paired `**` delimiters,
emits non-empty segments only, marks odd split positions bold and even
positions plain, and on the spec example yields exactly the three
expected segments. -/
theorem c6_emphasis :
    apply_bold_to_text "Delivered **40%** faster"
        = [("Delivered ", false), ("40%", true), (" faster", false)]
    ∧ ∀ s : String,
        apply_bold_to_text s
          = ((splitStars s.data).map String.mk).enum.filterMap
              (fun q => if q.2 = "" then none else some (q.2, q.1 % 2 == 1)) := by
  constructor
  · rfl
  · intro s
    unfold apply_bold_to_text
    rw [apply_bold_loop_eq]
    rfl

/-- C9 (confirmed): on an input containing a `**` marker but no paired
match, the parser (a total function, so it cannot crash) emits the whole
input as one literal plain segment with no bold toggling. -/
theorem c9_unpaired (s : String) (h1 : containsStarStar s.data = true)
    (h2 : hasPair s.data = false) :
    apply_bold_to_text s = [(s, false)] := by
  have hsp : splitStars s.data = [s.data] := by
    unfold splitStars
    simpa using splitStarsAux_no_pair s.data.length [] s.data le_rfl h2
  have hs : s ≠ "" := by
    intro h
    subst h
    simp [containsStarStar] at h1
  unfold apply_bold_to_text
  rw [hsp]
  simp [apply_bold_loop, hs]

/-- C9 (witness): the unpaired marker in "a **b" is passed through as
literal plain text. -/
theorem c9_witness : apply_bold_to_text "a **b" = [("a **b", false)] :=
  c9_unpaired "a **b" (by decide) (by decide)

/-- C10 (confirmed): re-inserting the matched `**` pairs between the split
parts reconstructs the input exactly (so no character outside the
consumed delimiters is lost, duplicated or reordered), and the emitted
segments concatenate to exactly the concatenation of all parts, i.e. the
input minus the matched `**` markers. -/
theorem c10_round_trip (s : String) :
    rejoin (splitStars s.data) = s.data
    ∧ ((apply_bold_to_text s).map (fun q => q.1.data)).flatten
        = (splitStars s.data).flatten := by
  constructor
  · unfold splitStars
    simpa using rejoin_splitStarsAux s.data.length [] s.data le_rfl
  · unfold apply_bold_to_text
    rw [apply_bold_loop_join, List.map_map,
      show String.data ∘ String.mk = id from rfl, List.map_id]

/-- C7 (counterexample): invoked without a role argument, the Markdown
variant's entry point does not print a usage message and exit — it
raises an uncaught IndexError at `sys.argv[1]`. -/
theorem c7_counterexample : ¬ printsUsageNonzeroExit (main_md ["build.py"]) := by
  rintro ⟨msgs, code, h, -⟩
  simp [main_md, List.get?] at h

/-- C7 (amended): with no role argument the document-variant entry point
prints the usage lines to stdout and exits with status 1 (non-zero),
while the Markdown variant raises an uncaught IndexError instead. -/
theorem c7_cli (argv : List String) (h : argv.length < 2) :
    main_docx argv = CliOutcome.usageExit usage_docx 1
    ∧ printsUsageNonzeroExit (main_docx argv)
    ∧ main_md argv = CliOutcome.raised "IndexError" := by
  have hg : argv[1]? = none := List.getElem?_eq_none (by omega)
  have hd : main_docx argv = CliOutcome.usageExit usage_docx 1 := by
    simp [main_docx, h]
  exact ⟨hd, ⟨usage_docx, 1, hd, by decide⟩, by simp [main_md, hg]⟩

/-- C7 (witness): the amended behaviour evaluated on an argv holding only
the program name. -/
theorem c7_witness :
    main_docx ["build_docx.py"] = CliOutcome.usageExit usage_docx 1
    ∧ printsUsageNonzeroExit (main_docx ["build_docx.py"])
    ∧ main_md ["build_docx.py"] = CliOutcome.raised "IndexError" :=
  c7_cli ["build_docx.py"] (by decide)

/-- C8 (confirmed): given that some version starting from 1 is free (true
of any finite set of existing files), the versioning loop picks the
smallest positive version whose output path does not already exist: the
chosen version is positive, its path is free, and every smaller positive
version's path already exists. -/
theorem c8_versioning (fsExists : String → Bool) (role : String)
    (h : ∃ k, fsExists (outputPath role (1 + k)) = false) :
    0 < nextVersion fsExists role h
    ∧ fsExists (outputPath role (nextVersion fsExists role h)) = false
    ∧ ∀ w, 0 < w → w < nextVersion fsExists role h →
        fsExists (outputPath role w) = true := by
  refine ⟨by simp [nextVersion], ?_, ?_⟩
  · simpa [nextVersion] using Nat.find_spec h
  · intro w hw hlt
    have hk : w - 1 < Nat.find h := by
      simp only [nextVersion] at hlt
      omega
    have hmin := Nat.find_min h hk
    have hw1 : 1 + (w - 1) = w := by omega
    rw [hw1] at hmin
    simpa using hmin

/-- C8 (witness): the versioning rule evaluated on an empty filesystem:
the chosen version is positive and its output path is free. -/
theorem c8_witness :
    0 < nextVersion fsEmpty "backend" ⟨0, rfl⟩
    ∧ fsEmpty (outputPath "backend" (nextVersion fsEmpty "backend" ⟨0, rfl⟩)) = false :=
  ⟨(c8_versioning fsEmpty "backend" ⟨0, rfl⟩).1,
   (c8_versioning fsEmpty "backend" ⟨0, rfl⟩).2.1⟩

end ResumeGen
